import Mathlib

/-!
Shallow embedding of the authenticated chat flow of the family-chat
application, in its two backend variants:

* the Cloudflare-Worker variant (`src/unnamed/part_000`): the
  `POST /api/chat` route together with its helpers `validateUserLimits`,
  `updateMessageCount`, `checkContentModeration`, `detectMood`,
  `detectTopics`, and

* the Express/SQLite variant (`src/server.ts`): `authMiddleware`,
  `GET /api/chats/:id` and `POST /api/chat`.

Storage (Supabase / SQLite) is modelled as explicit lists of rows inside a
`Db` record; time is a logical clock `now` that each row write advances, so
`created_at` stamps are strictly increasing across writes.  External calls
(the generative-AI endpoint) are parameters of the handlers.
-/

namespace FamiliaAI

/-- JS `String.prototype.includes` on lowered char lists: `isPrefixL pat l`
is `pat` being an initial segment of `l`. -/
def isPrefixL : List Char → List Char → Bool
  | [], _ => true
  | _ :: _, [] => false
  | a :: as, b :: bs => a == b && isPrefixL as bs

/-- `subL pat hay`: `pat` occurs as a contiguous run inside `hay`. -/
def subL (pat : List Char) : List Char → Bool
  | [] => pat.isEmpty
  | c :: cs => isPrefixL pat (c :: cs) || subL pat cs

/-- `hay.includes(pat)` of JavaScript: substring containment. -/
def containsSub (hay pat : String) : Bool :=
  subL pat.data hay.data

/-- JS `toLowerCase`, character by character (ASCII range, which covers
every term the blocklists and lexicons compare case-insensitively). -/
def toLowerStr (s : String) : String :=
  ⟨s.data.map Char.toLower⟩

/-- JS `substring(0, n)`: the first `n` characters. -/
def takeStr (s : String) (n : Nat) : String :=
  ⟨s.data.take n⟩

/-- JS `message.split(' ')`: split on every single space character,
keeping empty fields; the result is never empty (`''.split(' ') = ['']`). -/
def splitSpaces : List Char → List (List Char)
  | [] => [[]]
  | c :: cs =>
    if c == ' ' then [] :: splitSpaces cs
    else
      match splitSpaces cs with
      | [] => [[c]]
      | w :: ws => (c :: w) :: ws

/-- Word count used by `detectMood`: `message.split(' ').length`. -/
def jsWordCount (s : String) : Nat :=
  (splitSpaces s.data).length

/-! ## Data model -/

/-- The `limits` JSON object on a user row. -/
structure Limits where
  daily_messages : Nat
  used_today : Nat
  deriving Repr, DecidableEq

/-- A row of the `users` table (the fields the chat flow reads).
`limits` is `none` when the JSON column is null/absent. -/
structure User where
  id : Nat
  email : String
  role : String
  limits : Option Limits
  deriving Repr, DecidableEq

/-- A row of the `sessions` table (the fields token validation reads). -/
structure Session where
  token : String
  user_id : Nat
  expires_at : Nat
  deriving Repr, DecidableEq

/-- A row of the `chat_threads` table. -/
structure Thread where
  id : Nat
  user_id : Nat
  title : String
  created_at : Nat
  last_message_at : Nat
  deriving Repr, DecidableEq

/-- A row of the `chat_messages` table.  The Worker variant also stores the
author's `user_id`; the Express schema has no such column (`none`). -/
structure Msg where
  id : Nat
  thread_id : Nat
  user_id : Option Nat
  role : String
  content : String
  created_at : Nat
  deriving Repr, DecidableEq

/-- A row of `user_mood_tracking` (columns the claims mention). -/
structure MoodRow where
  user_id : Nat
  mood_score : ℚ
  detected_mood : String
  deriving Repr, DecidableEq

/-- The storage state shared by both backend variants, plus the logical
clock `now` (advanced at each row write) and a fresh-id counter. -/
structure Db where
  users : List User
  sessions : List Session
  threads : List Thread
  messages : List Msg
  moods : List MoodRow
  topics : List (String × Nat)
  security_logs : List (Nat × String)
  blocked_terms : List String
  now : Nat
  nextId : Nat
  deriving Repr, DecidableEq

/-- Result of a chat request: a success envelope `{response, threadId}`
(HTTP 200) or an error envelope `{error}` with its HTTP status. -/
inductive ChatResult where
  | ok (response : String) (threadId : Nat)
  | err (status : Nat) (msg : String)
  deriving Repr, DecidableEq

/-- HTTP status of a `ChatResult` (success is 200). -/
def ChatResult.status : ChatResult → Nat
  | .ok _ _ => 200
  | .err s _ => s

/-! ## Worker helpers (src/unnamed/part_000) -/

/-- `validateUserLimits(user, limits)`: false when `limits` is null/absent,
otherwise `user.limits.used_today < user.limits.daily_messages`.  (At its
only call site `limits` is `user.limits`; the mismatched branch where
`limits` is non-null but `user.limits` is null cannot arise there.) -/
def validateUserLimits (user : User) (limits : Option Limits) : Bool :=
  match limits, user.limits with
  | none, _ => false
  | some _, none => false
  | some _, some l => l.used_today < l.daily_messages

/-- `updateMessageCount(user)`: bumps `used_today` on the given (in-memory)
user object.  Note the Worker applies this to its request-local copy of the
user and issues no storage update. -/
def updateMessageCount (user : User) : User :=
  match user.limits with
  | none => user
  | some l => { user with limits := some { l with used_today := l.used_today + 1 } }

/-- The Worker's static moderation blocklist. -/
def blockedTermsWorker : List String := ["spam", "inappropriate"]

/-- `checkContentModeration(message)`: true (allowed) iff no blocked term
occurs in the lowercased message. -/
def checkContentModeration (message : String) : Bool :=
  !(blockedTermsWorker.any fun term => containsSub (toLowerStr message) term)

/-- Positive lexicon of `detectMood`. -/
def positiveWords : List String :=
  ["feliz", "contento", "alegre", "bien", "genial", "excelente", "maravilloso"]

/-- Negative lexicon of `detectMood`. -/
def negativeWords : List String :=
  ["triste", "enojado", "mal", "horrible", "terrible", "odio", "malo"]

/-- Result record of `detectMood`. -/
structure Mood where
  score : ℚ
  type : String
  confidence : ℚ
  deriving Repr, DecidableEq

/-- `positiveCount` of `detectMood`: positive lexicon entries occurring in
the lowercased message. -/
def posHits (message : String) : Nat :=
  (positiveWords.filter fun word => containsSub (toLowerStr message) word).length

/-- `negativeCount` of `detectMood`. -/
def negHits (message : String) : Nat :=
  (negativeWords.filter fun word => containsSub (toLowerStr message) word).length

/-- `detectMood(message)`: counts lexicon entries occurring in the
lowercased message, divides by `message.split(' ').length`, and returns a
signed score, or `null` on a tie. -/
def detectMood (message : String) : Option Mood :=
  if posHits message > negHits message then
    some ⟨(posHits message : ℚ) / (jsWordCount message : ℚ), "positive", 8/10⟩
  else if negHits message > posHits message then
    some ⟨-((negHits message : ℚ) / (jsWordCount message : ℚ)), "negative", 8/10⟩
  else none

/-- The fixed category → keyword-list mapping of `detectTopics`. -/
def topicKeywords : List (String × List String) :=
  [("tecnología", ["computadora", "programación", "internet", "software", "hardware", "app", "aplicación"]),
   ("educación", ["escuela", "clase", "estudio", "libro", "profesor", "tarea", "examen"]),
   ("familia", ["papá", "mamá", "hermano", "hermana", "abuelo", "abuela", "familia"]),
   ("juegos", ["jugar", "videojuego", "juego", "consola", "juguetes"]),
   ("deportes", ["fútbol", "baloncesto", "tenis", "deporte", "entrenamiento", "equipo"])]

/-- `detectTopics(message)`: the categories one of whose keywords occurs in
the lowercased message, in mapping order. -/
def detectTopics (message : String) : List String :=
  let messageLower := toLowerStr message
  (topicKeywords.filter fun p => p.2.any fun keyword => containsSub messageLower keyword).map (·.1)

/-- `topic_evolution` upsert with `onConflict: 'topic'`: replace the row
with the same topic key, else append. -/
def upsertTopic (rows : List (String × Nat)) (topic : String) (uid : Nat) : List (String × Nat) :=
  if rows.any (·.1 == topic) then
    rows.map fun p => if p.1 == topic then (topic, uid) else p
  else rows ++ [(topic, uid)]

/-- Token-validation outcome (spec taxonomy §7). -/
inductive AuthError where
  | unauthenticated
  | expired
  deriving Repr, DecidableEq

/-- Modelled from the spec: `validateToken` is invoked by the Worker
(`src/unnamed/part_000:454`) but its definition is not among the source
files.  Spec §4.1: "Looks up the session by exact token match; fails with
`Unauthenticated` if absent; fails with `Expired` if `now > expires_at`.
On success resolves the owning user record." -/
def validateToken (token : String) (db : Db) : Except AuthError User :=
  match db.sessions.find? (fun s => s.token == token) with
  | none => .error .unauthenticated
  | some s =>
    if db.now > s.expires_at then .error .expired
    else
      match db.users.find? (fun u => u.id == s.user_id) with
      | none => .error .unauthenticated
      | some u => .ok u

/-! ## Worker `POST /api/chat` (src/unnamed/part_000:465-600) -/

/-- What the Worker observes of the Gemini HTTP exchange.  The Worker never
inspects the HTTP status: it runs `geminiResponse.json()` unconditionally.
`badJson` is a body that fails JSON parsing (the promise rejects, landing in
the route's `catch`); `parsed text` is a parsed body whose
`candidates?.[0]?.content?.parts?.[0]?.text` chain yields `text`. -/
inductive GeminiHttp where
  | badJson
  | parsed (text : Option String)
  deriving Repr, DecidableEq

/-- The Worker's fixed fallback reply. -/
def geminiFallback : String := "Lo siento, no pude procesar tu mensaje."

/-- `geminiData.candidates?.[0]?.content?.parts?.[0]?.text || fallback`:
the fallback also fires on a present-but-empty string (JS falsiness). -/
def extractGeminiText : Option String → String
  | some t => if t = "" then geminiFallback else t
  | none => geminiFallback

/-- The Worker `POST /api/chat` route, entered at the protected-routes
gate: token check, `validateToken`, empty-message check, moderation, quota,
thread find-or-create, user-message write, mood/topic side signals, AI
call, assistant-message write, in-memory `updateMessageCount`. -/
def workerChat (db : Db) (token : Option String) (message : String)
    (threadId : Option Nat) (ai : GeminiHttp) : ChatResult × Db :=
  match token with
  | none => (.err 401 "Token requerido", db)
  | some tok =>
    match validateToken tok db with
    | .error _ => (.err 401 "Token inválido o expirado", db)
    | .ok user =>
      if message = "" then (.err 400 "Mensaje requerido", db)
      else if !checkContentModeration message then
        (.err 400 "Contenido no permitido", db)
      else if !validateUserLimits user user.limits then
        (.err 429 "Límite de mensajes diarios alcanzado", db)
      else
        let found := threadId.bind fun tid =>
          db.threads.find? fun t => t.id == tid && t.user_id == user.id
        let threadAndDb : Thread × Db :=
          match found with
          | some t => (t, db)
          | none =>
            let t : Thread := ⟨db.nextId, user.id, takeStr message 50, db.now, db.now⟩
            (t, { db with threads := db.threads ++ [t],
                          nextId := db.nextId + 1, now := db.now + 1 })
        let thread := threadAndDb.1
        let db1 := threadAndDb.2
        let umsg : Msg := ⟨db1.nextId, thread.id, some user.id, "user", message, db1.now⟩
        let db2 := { db1 with messages := db1.messages ++ [umsg],
                              nextId := db1.nextId + 1, now := db1.now + 1 }
        let db3 := { db2 with moods := db2.moods ++
          ((detectMood message).toList.map fun (m : Mood) => MoodRow.mk user.id m.score m.type) }
        let db4 := { db3 with topics :=
          (detectTopics message).foldl (fun acc t => upsertTopic acc t user.id) db3.topics }
        match ai with
        | .badJson => (.err 500 "Unexpected token in JSON", db4)
        | .parsed payloadText =>
          let aiResponse := extractGeminiText payloadText
          let amsg : Msg := ⟨db4.nextId, thread.id, some user.id, "assistant", aiResponse, db4.now⟩
          let db5 := { db4 with messages := db4.messages ++ [amsg],
                                nextId := db4.nextId + 1, now := db4.now + 1 }
          let _localUser := updateMessageCount user
          (.ok aiResponse thread.id, db5)

/-! ## Express variant (src/server.ts) -/

/-- `process.env.ADMIN_EMAIL || "quique@oropezas.com"` (env absent). -/
def adminEmail : String := "quique@oropezas.com"

/-- The Express mock auth middleware: resolves the user by the
`x-user-email` header, defaulting to the admin email; no token, session or
expiry is consulted. -/
def authMiddleware (db : Db) (userEmail : Option String) : Option User :=
  db.users.find? fun u => u.email == userEmail.getD adminEmail

/-- Insertion step of the `ORDER BY created_at ASC` read-back model. -/
def insertByTime (m : Msg) : List Msg → List Msg
  | [] => [m]
  | x :: xs => if m.created_at ≤ x.created_at then m :: x :: xs else x :: insertByTime m xs

/-- `ORDER BY created_at ASC` over a row list (insertion sort; the logical
clock gives distinct stamps, so ties never arise in modelled runs). -/
def sortByCreated (l : List Msg) : List Msg := l.foldr insertByTime []

/-- Express `GET /api/chats/:id`: returns the messages of the requested
thread ordered by creation time; note there is no ownership filter. -/
def expressGetChatMessages (db : Db) (userEmail : Option String) (tid : Nat) :
    Except Nat (List Msg) :=
  match authMiddleware db userEmail with
  | none => .error 401
  | some _ => .ok (sortByCreated (db.messages.filter fun m => m.thread_id == tid))

/-- Express `POST /api/chat`: empty-message check, blocklist check against
the `blocked_terms` table, thread creation only when no id is supplied
(a supplied id is used as-is, with no existence or ownership check), user
message write, AI call (an exception becomes HTTP 500), assistant message
write, thread timestamp update, security log.  No quota gate exists on
this route. -/
def expressChat (db : Db) (userEmail : Option String) (message : String)
    (threadId : Option Nat) (ai : Except String String) : ChatResult × Db :=
  match authMiddleware db userEmail with
  | none => (.err 401 "Unauthorized", db)
  | some user =>
    if message = "" then (.err 400 "Message is required", db)
    else if db.blocked_terms.any (fun b => containsSub (toLowerStr message) (toLowerStr b)) then
      (.err 400 "Message contains blocked terms", db)
    else
      let tidAndDb : Nat × Db :=
        match threadId with
        | some tid => (tid, db)
        | none =>
          let t : Thread := ⟨db.nextId, user.id, takeStr message 30, db.now, db.now⟩
          (t.id, { db with threads := db.threads ++ [t],
                           nextId := db.nextId + 1, now := db.now + 1 })
      let tid := tidAndDb.1
      let db1 := tidAndDb.2
      let umsg : Msg := ⟨db1.nextId, tid, none, "user", message, db1.now⟩
      let db2 := { db1 with messages := db1.messages ++ [umsg],
                            nextId := db1.nextId + 1, now := db1.now + 1 }
      match ai with
      | .error e => (.err 500 e, db2)
      | .ok aiResponse =>
        let amsg : Msg := ⟨db2.nextId, tid, none, "assistant", aiResponse, db2.now⟩
        let db3 := { db2 with messages := db2.messages ++ [amsg],
                              nextId := db2.nextId + 1, now := db2.now + 1 }
        let db4 := { db3 with
          threads := db3.threads.map fun (t : Thread) =>
            if t.id == tid then { t with last_message_at := db3.now } else t,
          now := db3.now + 1 }
        let db5 := { db4 with security_logs := db4.security_logs ++ [(user.id, "chat_message_sent")] }
        (.ok aiResponse tid, db5)

/-! ## Sample rows and states, used to evaluate the handlers on concrete
requests (the spec's §8 scenarios) -/

/-- Scenario user `u1` with `limits = {daily_messages: 2, used_today: 1}`. -/
def u1 : User := ⟨1, "u1@x.com", "child", some ⟨2, 1⟩⟩

/-- A user already over quota. -/
def u2 : User := ⟨2, "u2@x.com", "child", some ⟨2, 5⟩⟩

/-- A user whose `limits` JSON column is null. -/
def u3 : User := ⟨3, "u3@x.com", "child", none⟩

/-- Scenario session: token `"abc123"` bound to `u1`, not yet expired at
clock 10. -/
def sess1 : Session := ⟨"abc123", 1, 100⟩

/-- Session for the over-quota user. -/
def sess2 : Session := ⟨"tok2", 2, 100⟩

/-- Session for the user with null limits. -/
def sess3 : Session := ⟨"tok3", 3, 100⟩

/-- Worker-variant storage state for the spec scenarios. -/
def dbW : Db := ⟨[u1, u2, u3], [sess1, sess2, sess3], [], [], [], [], [], [], 10, 100⟩

/-- The Express seeded admin (limits come from the schema default). -/
def adminUser : User := ⟨0, adminEmail, "admin", some ⟨20, 0⟩⟩

/-- An Express user already over quota. -/
def uOver : User := ⟨2, "over@x.com", "child", some ⟨2, 99⟩⟩

/-- A thread owned by `u1` in the Express store. -/
def exThread : Thread := ⟨7, 1, "u1 thread", 1, 1⟩

/-- A message of `u1` inside `exThread`. -/
def exMsg : Msg := ⟨50, 7, none, "user", "private note", 2⟩

/-- Express-variant storage state: admin and `u1` exist, `u1` owns thread 7
with one message, `blocked_terms` holds the seeded terms. -/
def dbE : Db :=
  ⟨[adminUser, u1, uOver], [], [exThread], [exMsg], [], [], [], ["spam", "malware", "offensive"], 10, 100⟩

/-- The Worker state after the clock has passed every session's
`expires_at` (sessions expire at 100). -/
def dbWexpired : Db := { dbW with now := 101 }

/-- First chat turn of the spec's §8 scenario (token `"abc123"`, message
`"Hello"`, AI replies with text). -/
def c1Turn1 : ChatResult × Db :=
  workerChat dbW (some "abc123") "Hello" none (.parsed (some "AI text"))

/-- Second chat turn by the same user against the state the first one
left behind. -/
def c1Turn2 : ChatResult × Db :=
  workerChat c1Turn1.2 (some "abc123") "Hello" none (.parsed (some "AI text"))

/-! ## Invariants and helper lemmas -/

/-- State invariant: every stored message was stamped strictly before the
current clock.  Every state the handlers produce satisfies it, because each
row write stamps the clock and then advances it. -/
def timesOk (db : Db) : Prop :=
  ∀ m ∈ db.messages, m.created_at < db.now

theorem splitSpaces_ne_nil (l : List Char) : splitSpaces l ≠ [] := by
  cases l with
  | nil => simp [splitSpaces]
  | cons c cs =>
    unfold splitSpaces
    split
    · simp
    · split <;> simp

theorem one_le_jsWordCount (s : String) : 1 ≤ jsWordCount s := by
  have h := splitSpaces_ne_nil s.data
  have := List.length_pos.mpr h
  simpa [jsWordCount] using this

theorem insertByTime_append (x : Msg) (s r : List Msg)
    (h : ∀ y ∈ r, x.created_at ≤ y.created_at) :
    insertByTime x (s ++ r) = insertByTime x s ++ r := by
  induction s with
  | nil =>
    cases r with
    | nil => simp [insertByTime]
    | cons y ys => simp [insertByTime, h y (by simp)]
  | cons z zs ih =>
    simp only [List.cons_append, insertByTime]
    by_cases hc : x.created_at ≤ z.created_at
    · simp [hc]
    · simp [hc, ih]

theorem foldr_insertByTime_append (l r : List Msg)
    (h : ∀ x ∈ l, ∀ y ∈ r, x.created_at ≤ y.created_at) :
    l.foldr insertByTime r = sortByCreated l ++ r := by
  induction l with
  | nil => simp [sortByCreated]
  | cons x xs ih =>
    simp only [List.foldr_cons, sortByCreated] at *
    rw [ih (fun a ha y hy => h a (List.mem_cons_of_mem x ha) y hy)]
    exact insertByTime_append x _ r (h x (List.mem_cons_self x xs))

theorem sortByCreated_append_two (l : List Msg) (u a : Msg)
    (hua : u.created_at ≤ a.created_at)
    (hl : ∀ x ∈ l, x.created_at ≤ u.created_at) :
    sortByCreated (l ++ [u, a]) = sortByCreated l ++ [u, a] := by
  have h2 : List.foldr insertByTime [] [u, a] = [u, a] := by
    simp [insertByTime, hua]
  have hall : ∀ x ∈ l, ∀ y ∈ [u, a], x.created_at ≤ y.created_at := by
    intro x hx y hy
    rcases List.mem_cons.mp hy with h1 | hy2
    · exact h1 ▸ hl x hx
    · rcases List.mem_singleton.mp hy2 with rfl
      exact le_trans (hl x hx) hua
  calc sortByCreated (l ++ [u, a])
      = l.foldr insertByTime (List.foldr insertByTime [] [u, a]) := by
        simp [sortByCreated, List.foldr_append]
    _ = l.foldr insertByTime [u, a] := by rw [h2]
    _ = sortByCreated l ++ [u, a] := foldr_insertByTime_append l [u, a] hall

theorem checkContentModeration_eq_false {message term : String}
    (hterm : term ∈ blockedTermsWorker)
    (hsub : containsSub (toLowerStr message) term = true) :
    checkContentModeration message = false := by
  have hany : (blockedTermsWorker.any fun t => containsSub (toLowerStr message) t) = true :=
    List.any_eq_true.mpr ⟨term, hterm, hsub⟩
  simp [checkContentModeration, hany]

/-! ## Claims -/

/-- C1: the spec's scenario demands that a successful chat turn durably
increment the stored `used_today` counter (1 → 2), so that the same user's
next attempt is rejected with HTTP 429 and nothing new is persisted.  On
the code the first turn succeeds, but `updateMessageCount` bumps only the
request-local copy of the user record and no storage update is ever
issued: the stored counter remains 1, and the second attempt succeeds with
HTTP 200 instead of failing with RateLimited. -/
theorem c1_used_today_not_persisted :
    c1Turn1.1 = .ok "AI text" 100
    ∧ updateMessageCount u1 = ⟨1, "u1@x.com", "child", some ⟨2, 2⟩⟩
    ∧ c1Turn1.2.users = dbW.users
    ∧ c1Turn2.1 = .ok "AI text" 103
    ∧ c1Turn2.1.status ≠ 429 := by
  decide

/-- C10: for every authenticated user whose `limits` object is null or
absent, a Worker chat attempt is rejected with HTTP 429 (RateLimited),
regardless of the message and of the AI outcome, and the store is left
untouched: `validateUserLimits` returns false on a missing limits object
rather than treating it as unlimited or defaulted. -/
theorem c10_null_limits_rate_limited :
    ∀ (db : Db) (tok : String) (user : User) (msg : String) (tid : Option Nat) (ai : GeminiHttp),
      validateToken tok db = .ok user →
      user.limits = none → msg ≠ "" → checkContentModeration msg = true →
      workerChat db (some tok) msg tid ai = (.err 429 "Límite de mensajes diarios alcanzado", db) := by
  intro db tok user msg tid ai hv hlim hmsg hmod
  have hval : validateUserLimits user user.limits = false := by
    simp [validateUserLimits, hlim]
  simp [workerChat, hv, hmsg, hmod, hval]

/-- C10 witness: user `u3` (null limits) is authenticated by token
`"tok3"`, sends a clean nonempty message, and is rejected with 429. -/
theorem c10_witness :
    workerChat dbW (some "tok3") "Hello" none (.parsed (some "Hi")) =
      (.err 429 "Límite de mensajes diarios alcanzado", dbW) :=
  c10_null_limits_rate_limited dbW "tok3" u3 "Hello" none (.parsed (some "Hi"))
    rfl rfl (by decide) (by decide)

/-- C4 (amended): in the Worker variant, every chat attempt by an
authenticated user with `used_today >= daily_messages` fails with
HTTP 429 and leaves the store untouched — no thread, no message rows —
for every AI outcome (so no AI result is ever consulted).  The Express
`POST /api/chat` route, also cited by the claim, performs no quota check
at all (see the counterexample). -/
theorem c4_worker_quota_gate :
    ∀ (db : Db) (tok : String) (user : User) (l : Limits) (msg : String)
      (tid : Option Nat) (ai : GeminiHttp),
      validateToken tok db = .ok user →
      user.limits = some l → l.daily_messages ≤ l.used_today →
      msg ≠ "" → checkContentModeration msg = true →
      workerChat db (some tok) msg tid ai = (.err 429 "Límite de mensajes diarios alcanzado", db) := by
  intro db tok user l msg tid ai hv hlim hover hmsg hmod
  have hval : validateUserLimits user user.limits = false := by
    simp [validateUserLimits, hlim]
    omega
  simp [workerChat, hv, hmsg, hmod, hval]

/-- C4 witness: the over-quota user `u2` (`used_today = 5 ≥ 2 =
daily_messages`) is rejected with 429 and nothing is written. -/
theorem c4_witness :
    workerChat dbW (some "tok2") "Hello" none (.parsed (some "Hi")) =
      (.err 429 "Límite de mensajes diarios alcanzado", dbW) :=
  c4_worker_quota_gate dbW "tok2" u2 ⟨2, 5⟩ "Hello" none (.parsed (some "Hi"))
    rfl rfl (by decide) (by decide) (by decide)

/-- C4 counterexample: the claim fails on the Express variant, whose chat
route it also cites.  User `uOver` has `used_today = 99 ≥ 2 =
daily_messages`, yet the chat attempt succeeds with HTTP 200 and two new
message rows are persisted: the Express route has no quota gate. -/
theorem c4_counterexample :
    uOver ∈ dbE.users
    ∧ uOver.limits = some ⟨2, 99⟩
    ∧ (expressChat dbE (some "over@x.com") "Hello" none (.ok "Hi")).1.status = 200
    ∧ (expressChat dbE (some "over@x.com") "Hello" none (.ok "Hi")).2.messages.length
        = dbE.messages.length + 2 := by
  decide

/-- C5: in both variants, a message whose lowercased text contains a
blocklisted term as a substring is rejected with HTTP 400 and the store is
left untouched (no thread created, no message rows written), for every AI
outcome (so no AI call is consulted).  In the Worker the list is the
static `['spam', 'inappropriate']`; in Express it is the `blocked_terms`
table, each term itself lowercased before matching. -/
theorem c5_content_rejected_before_persistence :
    (∀ (db : Db) (tok : String) (user : User) (msg term : String)
       (tid : Option Nat) (ai : GeminiHttp),
       validateToken tok db = .ok user → msg ≠ "" →
       term ∈ blockedTermsWorker → containsSub (toLowerStr msg) term = true →
       workerChat db (some tok) msg tid ai = (.err 400 "Contenido no permitido", db))
    ∧ (∀ (db : Db) (ue : Option String) (user : User) (msg term : String)
         (tid : Option Nat) (ai : Except String String),
         authMiddleware db ue = some user → msg ≠ "" →
         term ∈ db.blocked_terms → containsSub (toLowerStr msg) (toLowerStr term) = true →
         expressChat db ue msg tid ai = (.err 400 "Message contains blocked terms", db)) := by
  constructor
  · intro db tok user msg term tid ai hv hmsg hterm hsub
    have hmod : checkContentModeration msg = false :=
      checkContentModeration_eq_false hterm hsub
    simp [workerChat, hv, hmsg, hmod]
  · intro db ue user msg term tid ai hau hmsg hterm hsub
    have hany : (db.blocked_terms.any fun b => containsSub (toLowerStr msg) (toLowerStr b)) = true :=
      List.any_eq_true.mpr ⟨term, hterm, hsub⟩
    simp [expressChat, hau, hmsg, hany]

/-- C5 witness: the spec's §8 scenario message `"this is spam content"`
is rejected with 400 by both variants, with nothing persisted. -/
theorem c5_witness :
    workerChat dbW (some "abc123") "this is spam content" none (.parsed (some "Hi")) =
      (.err 400 "Contenido no permitido", dbW)
    ∧ expressChat dbE none "this is spam content" none (.ok "Hi") =
      (.err 400 "Message contains blocked terms", dbE) :=
  ⟨c5_content_rejected_before_persistence.1 dbW "abc123" u1 "this is spam content" "spam"
      none (.parsed (some "Hi")) rfl (by decide) (by decide) (by decide),
   c5_content_rejected_before_persistence.2 dbE none adminUser "this is spam content" "spam"
      none (.ok "Hi") rfl (by decide) (by decide) (by decide)⟩

/-- C2 (amended): for the Worker variant — whose `validateToken` is
modelled from the spec, its definition being absent from the source
files — token validation returns the user bound to the first session whose
token matches exactly, provided the clock has not passed `expires_at`
(success at `now = expires_at`, since the code's failure condition is the
strict `now > expires_at`); it fails `Unauthenticated` when no session
matches and `Expired` when `now > expires_at`; and on any validation
failure the chat route returns 401 with the store untouched, so no
protected operation runs.  The Express variant's `authMiddleware`, also
cited by the claim, performs no token validation at all (see the
counterexample). -/
theorem c2_token_validation :
    (∀ (db : Db) (tok : String),
       db.sessions.find? (fun s => s.token == tok) = none →
       validateToken tok db = .error .unauthenticated)
    ∧ (∀ (db : Db) (tok : String) (s : Session),
         db.sessions.find? (fun s' => s'.token == tok) = some s →
         s.expires_at < db.now →
         validateToken tok db = .error .expired)
    ∧ (∀ (db : Db) (tok : String) (s : Session) (u : User),
         db.sessions.find? (fun s' => s'.token == tok) = some s →
         db.now ≤ s.expires_at →
         db.users.find? (fun u' => u'.id == s.user_id) = some u →
         validateToken tok db = .ok u ∧ s.token = tok ∧ u.id = s.user_id)
    ∧ (∀ (db : Db) (tok msg : String) (tid : Option Nat) (ai : GeminiHttp) (e : AuthError),
         validateToken tok db = .error e →
         workerChat db (some tok) msg tid ai = (.err 401 "Token inválido o expirado", db)) := by
  refine ⟨?_, ?_, ?_, ?_⟩
  · intro db tok h
    simp [validateToken, h]
  · intro db tok s h hexp
    simp [validateToken, h, hexp]
  · intro db tok s u hfind hexp huser
    refine ⟨?_, ?_, ?_⟩
    · simp [validateToken, hfind, Nat.not_lt.mpr hexp, huser]
    · have h := List.find?_some hfind
      simpa using h
    · have h := List.find?_some huser
      simpa using h
  · intro db tok msg tid ai e hv
    simp [workerChat, hv]

/-- C2 witness: in the scenario state, token `"abc123"` resolves to `u1`;
an unknown token is `Unauthenticated`; once the clock passes
`expires_at = 100` the same token is `Expired` and the chat route answers
401 without touching the store. -/
theorem c2_witness :
    (validateToken "abc123" dbW = .ok u1 ∧ sess1.token = "abc123" ∧ u1.id = sess1.user_id)
    ∧ validateToken "missing" dbW = .error .unauthenticated
    ∧ validateToken "abc123" dbWexpired = .error .expired
    ∧ workerChat dbWexpired (some "abc123") "Hello" none (.parsed (some "Hi")) =
        (.err 401 "Token inválido o expirado", dbWexpired) :=
  ⟨c2_token_validation.2.2.1 dbW "abc123" sess1 u1 rfl (by decide) rfl,
   c2_token_validation.1 dbW "missing" rfl,
   c2_token_validation.2.1 dbWexpired "abc123" sess1 rfl (by decide),
   c2_token_validation.2.2.2 dbWexpired "abc123" "Hello" none (.parsed (some "Hi"))
     .expired rfl⟩

/-- C2 counterexample: in the Express variant (cited by the claim through
`authMiddleware`), a request carrying no credentials succeeds although the
session store is empty — no session with any token exists, `now` is past
nothing — and the protected chat operation runs and persists two rows:
token validation succeeding "exactly when a session with that exact token
exists and `now < expires_at`", and "no protected operation runs on
failure", are both false of this variant. -/
theorem c2_counterexample :
    dbE.sessions = []
    ∧ authMiddleware dbE none = some adminUser
    ∧ (expressChat dbE none "Hello" none (.ok "Hi")).1.status = 200
    ∧ (expressChat dbE none "Hello" none (.ok "Hi")).2.messages.length
        = dbE.messages.length + 2 := by
  decide

/-- C6 (amended): in the Worker variant, whenever no thread id is supplied
or the ownership-scoped lookup of the supplied id finds nothing (missing
id or a thread owned by another user), a new thread is created for the
requesting user with title equal to the first 50 characters of the
message, regardless of the AI outcome.  In the Express variant, also cited
by the claim, a new thread is created only when no id is supplied, its
title is the first 30 characters, and a supplied id — even another user's —
is used as-is (see the counterexample). -/
theorem c6_worker_thread_creation :
    ∀ (db : Db) (tok : String) (user : User) (msg : String) (tid : Option Nat) (ai : GeminiHttp),
      validateToken tok db = .ok user →
      msg ≠ "" → checkContentModeration msg = true →
      validateUserLimits user user.limits = true →
      (tid.bind fun i => db.threads.find? fun t => t.id == i && t.user_id == user.id) = none →
      (workerChat db (some tok) msg tid ai).2.threads =
        db.threads ++ [⟨db.nextId, user.id, takeStr msg 50, db.now, db.now⟩] := by
  intro db tok user msg tid ai hv hmsg hmod hlim hbind
  cases ai <;> simp [workerChat, hv, hmsg, hmod, hlim, hbind]

/-- C6 witness: `u1` chats without a thread id; the Worker creates thread
100 owned by `u1`, titled with the (here short) message text. -/
theorem c6_witness :
    (workerChat dbW (some "abc123") "Hello" none (.parsed (some "Hi"))).2.threads =
      dbW.threads ++ [⟨100, 1, takeStr "Hello" 50, 10, 10⟩] :=
  c6_worker_thread_creation dbW "abc123" u1 "Hello" none (.parsed (some "Hi"))
    rfl (by decide) (by decide) (by decide) rfl

/-- C6 counterexample: the Express variant falsifies the claim twice.  A
62-character message with no thread id yields a thread titled with the
first 30 characters, not the first 50; and a request supplying another
user's thread id (admin, id 0, supplies `u1`'s thread 7) creates no new
thread at all. -/
theorem c6_counterexample :
    (expressChat dbE none "Hello there this is a somewhat long message over thirty chars"
        none (.ok "Hi")).2.threads.map Thread.title
      = ["u1 thread", "Hello there this is a somewhat"]
    ∧ "Hello there this is a somewhat"
        ≠ takeStr "Hello there this is a somewhat long message over thirty chars" 50
    ∧ exThread.user_id = 1 ∧ adminUser.id = 0
    ∧ (expressChat dbE none "irrelevant" (some 7) (.ok "Hi")).2.threads.map Thread.id = [7] := by
  decide

/-- C3 (amended): in the Worker variant, every message row present after a
chat request either predates the request or lives in a thread that belongs
to the requesting user: the thread lookup is ownership-scoped and its
fallback creates a thread owned by the requester, so a request supplying
another user's thread id never appends to that thread.  The Express
variant, also cited by the claim, enforces no ownership on its thread read
or on its chat append (see the counterexample). -/
theorem c3_worker_ownership :
    ∀ (db : Db) (tok : String) (user : User) (msg : String) (tid : Option Nat)
      (ai : GeminiHttp) (r : ChatResult) (db' : Db),
      validateToken tok db = .ok user →
      workerChat db (some tok) msg tid ai = (r, db') →
      ∀ m ∈ db'.messages, m ∈ db.messages ∨
        ∃ t ∈ db'.threads, t.id = m.thread_id ∧ t.user_id = user.id := by
  intro db tok user msg tid ai r db' hv heq
  simp only [workerChat, hv] at heq
  by_cases h1 : msg = ""
  · rw [if_pos h1] at heq
    injection heq with hr hdb
    subst hdb
    exact fun m hm => Or.inl hm
  rw [if_neg h1] at heq
  cases hcm : checkContentModeration msg with
  | false =>
    simp only [hcm, Bool.not_false, if_true] at heq
    injection heq with hr hdb
    subst hdb
    exact fun m hm => Or.inl hm
  | true =>
    simp only [hcm, Bool.not_true, Bool.false_eq_true, if_false] at heq
    cases hvl : validateUserLimits user user.limits with
    | false =>
      simp only [hvl, Bool.not_false, if_true] at heq
      injection heq with hr hdb
      subst hdb
      exact fun m hm => Or.inl hm
    | true =>
      simp only [hvl, Bool.not_true, Bool.false_eq_true, if_false] at heq
      cases hf : (tid.bind fun i => db.threads.find? fun t => t.id == i && t.user_id == user.id) with
      | some t0 =>
        have ht0mem : t0 ∈ db.threads := by
          cases tid with
          | none => simp at hf
          | some i =>
            simp only [Option.some_bind] at hf
            exact List.mem_of_find?_eq_some hf
        have ht0own : t0.user_id = user.id := by
          cases tid with
          | none => simp at hf
          | some i =>
            simp only [Option.some_bind] at hf
            have hpred := List.find?_some hf
            simp at hpred
            exact hpred.2
        cases ai with
        | badJson =>
          simp only [hf] at heq
          injection heq with hr hdb
          subst hdb
          intro m hm
          rcases List.mem_append.mp hm with h | h
          · exact Or.inl h
          · simp only [List.mem_singleton] at h
            subst h
            exact Or.inr ⟨t0, ht0mem, rfl, ht0own⟩
        | parsed ptext =>
          simp only [hf] at heq
          injection heq with hr hdb
          subst hdb
          intro m hm
          rcases List.mem_append.mp hm with hm' | hm'
          · rcases List.mem_append.mp hm' with h | h
            · exact Or.inl h
            · simp only [List.mem_singleton] at h
              subst h
              exact Or.inr ⟨t0, ht0mem, rfl, ht0own⟩
          · simp only [List.mem_singleton] at hm'
            subst hm'
            exact Or.inr ⟨t0, ht0mem, rfl, ht0own⟩
      | none =>
        cases ai with
        | badJson =>
          simp only [hf] at heq
          injection heq with hr hdb
          subst hdb
          intro m hm
          rcases List.mem_append.mp hm with h | h
          · exact Or.inl h
          · simp only [List.mem_singleton] at h
            subst h
            exact Or.inr ⟨⟨db.nextId, user.id, takeStr msg 50, db.now, db.now⟩,
              List.mem_append.mpr (Or.inr (List.mem_singleton.mpr rfl)), rfl, rfl⟩
        | parsed ptext =>
          simp only [hf] at heq
          injection heq with hr hdb
          subst hdb
          intro m hm
          rcases List.mem_append.mp hm with hm' | hm'
          · rcases List.mem_append.mp hm' with h | h
            · exact Or.inl h
            · simp only [List.mem_singleton] at h
              subst h
              exact Or.inr ⟨⟨db.nextId, user.id, takeStr msg 50, db.now, db.now⟩,
                List.mem_append.mpr (Or.inr (List.mem_singleton.mpr rfl)), rfl, rfl⟩
          · simp only [List.mem_singleton] at hm'
            subst hm'
            exact Or.inr ⟨⟨db.nextId, user.id, takeStr msg 50, db.now, db.now⟩,
              List.mem_append.mpr (Or.inr (List.mem_singleton.mpr rfl)), rfl, rfl⟩

/-- C3 witness: in the scenario run, the freshly written user message (row
101, thread 100) lives in a thread owned by the requesting user `u1`. -/
theorem c3_witness :
    (⟨101, 100, some 1, "user", "Hello", 11⟩ : Msg) ∈ dbW.messages ∨
      ∃ t ∈ (workerChat dbW (some "abc123") "Hello" none (.parsed (some "Hi"))).2.threads,
        t.id = (⟨101, 100, some 1, "user", "Hello", 11⟩ : Msg).thread_id ∧ t.user_id = u1.id :=
  c3_worker_ownership dbW "abc123" u1 "Hello" none (.parsed (some "Hi"))
    (workerChat dbW (some "abc123") "Hello" none (.parsed (some "Hi"))).1
    (workerChat dbW (some "abc123") "Hello" none (.parsed (some "Hi"))).2
    rfl rfl ⟨101, 100, some 1, "user", "Hello", 11⟩ (by decide)

/-- C3 counterexample: the Express variant violates the invariant.  Thread
7 belongs to `u1` (id 1), the requester is the admin (id 0); yet
`GET /api/chats/:id` returns `u1`'s messages to the admin, and
`POST /api/chat` with `threadId = 7` succeeds and appends the admin's
conversation to `u1`'s thread (its message count grows from 1 to 3). -/
theorem c3_counterexample :
    exThread.user_id = 1 ∧ adminUser.id = 0
    ∧ authMiddleware dbE none = some adminUser
    ∧ expressGetChatMessages dbE none 7 = .ok [exMsg]
    ∧ (expressChat dbE none "Hello" (some 7) (.ok "Hi")).1 = .ok "Hi" 7
    ∧ ((expressChat dbE none "Hello" (some 7) (.ok "Hi")).2.messages.filter
        (fun m => m.thread_id == 7)).length = 3 :=
  ⟨rfl, rfl, rfl, rfl, rfl, rfl⟩

/-- C8 (amended): the Worker ignores the AI call's HTTP status entirely;
whenever the response body parses as JSON but the
`candidates[0].content.parts[0].text` chain yields nothing (which covers
non-success statuses with JSON error bodies), it degrades to the fixed
fallback string, which is both returned to the caller and persisted as the
assistant message.  A body that fails JSON parsing, however, is not
degraded: the Worker's catch turns it into HTTP 500 (see the
counterexample).  The Express variant propagates any AI-call failure as a
fatal HTTP 500. -/
theorem c8_ai_failure_policy :
    (∀ (db : Db) (tok : String) (user : User) (msg : String) (tid : Option Nat),
       validateToken tok db = .ok user → msg ≠ "" →
       checkContentModeration msg = true → validateUserLimits user user.limits = true →
       (∃ T : Nat, (workerChat db (some tok) msg tid (.parsed none)).1 = .ok geminiFallback T)
       ∧ ((workerChat db (some tok) msg tid (.parsed none)).2.messages.getLast?.map Msg.content)
           = some geminiFallback
       ∧ ((workerChat db (some tok) msg tid (.parsed none)).2.messages.getLast?.map Msg.role)
           = some "assistant")
    ∧ (∀ (db : Db) (tok : String) (user : User) (msg : String) (tid : Option Nat),
         validateToken tok db = .ok user → msg ≠ "" →
         checkContentModeration msg = true → validateUserLimits user user.limits = true →
         (workerChat db (some tok) msg tid .badJson).1.status = 500)
    ∧ (∀ (db : Db) (ue : Option String) (user : User) (msg : String) (tid : Option Nat) (e : String),
         authMiddleware db ue = some user → msg ≠ "" →
         (db.blocked_terms.any fun b => containsSub (toLowerStr msg) (toLowerStr b)) = false →
         (expressChat db ue msg tid (.error e)).1 = .err 500 e) := by
  refine ⟨?_, ?_, ?_⟩
  · intro db tok user msg tid hv hmsg hmod hlim
    cases hf : (tid.bind fun i => db.threads.find? fun t => t.id == i && t.user_id == user.id) with
    | some t0 =>
      refine ⟨⟨t0.id, ?_⟩, ?_, ?_⟩ <;>
        simp [workerChat, hv, hmsg, hmod, hlim, hf, extractGeminiText, List.getLast?_concat]
    | none =>
      refine ⟨⟨db.nextId, ?_⟩, ?_, ?_⟩ <;>
        simp [workerChat, hv, hmsg, hmod, hlim, hf, extractGeminiText, List.getLast?_concat]
  · intro db tok user msg tid hv hmsg hmod hlim
    cases hf : (tid.bind fun i => db.threads.find? fun t => t.id == i && t.user_id == user.id) with
    | some t0 => simp [workerChat, hv, hmsg, hmod, hlim, hf, ChatResult.status]
    | none => simp [workerChat, hv, hmsg, hmod, hlim, hf, ChatResult.status]
  · intro db ue user msg tid e hau hmsg hblocked
    cases tid with
    | none => simp [expressChat, hau, hmsg, hblocked]
    | some i => simp [expressChat, hau, hmsg, hblocked]

/-- C8 witness: with a parsed-but-empty AI payload, the scenario request
returns the fallback string and persists it as the assistant message. -/
theorem c8_witness :
    ((∃ T : Nat, (workerChat dbW (some "abc123") "Hello" none (.parsed none)).1 = .ok geminiFallback T)
      ∧ ((workerChat dbW (some "abc123") "Hello" none (.parsed none)).2.messages.getLast?.map Msg.content)
          = some geminiFallback
      ∧ ((workerChat dbW (some "abc123") "Hello" none (.parsed none)).2.messages.getLast?.map Msg.role)
          = some "assistant")
    ∧ (expressChat dbE none "Hello" none (.error "fetch failed")).1 = .err 500 "fetch failed" :=
  ⟨c8_ai_failure_policy.1 dbW "abc123" u1 "Hello" none rfl (by decide) (by decide) (by decide),
   c8_ai_failure_policy.2.2 dbE none adminUser "Hello" none "fetch failed" rfl (by decide) (by decide)⟩

/-- C8 counterexample: the claim says the Worker degrades to the fallback
string on a malformed payload; in fact a body that fails JSON parsing
makes the route answer HTTP 500, no assistant row is written and the
fallback is not returned. -/
theorem c8_counterexample :
    (workerChat dbW (some "abc123") "Hello" none .badJson).1 = .err 500 "Unexpected token in JSON"
    ∧ (workerChat dbW (some "abc123") "Hello" none .badJson).1.status ≠ 200
    ∧ ((workerChat dbW (some "abc123") "Hello" none .badJson).2.messages.filter
        (fun m => m.role == "assistant")).length = 0 := by
  decide

/-- C9 (amended): `detectMood` returns either no result or a score that is
positive exactly when positive lexicon hits exceed negative hits and
negative in the opposite case; but the score is hit-count divided by
space-separated word count, so it is only bounded by the lexicon size 7,
not by 1: several lexicon entries occurring inside one word push it
above 1 (see the counterexample). -/
theorem c9_mood_score_amended :
    ∀ (msg : String) (m : Mood), detectMood msg = some m →
      (0 < m.score ↔ negHits msg < posHits msg)
      ∧ (m.score < 0 ↔ posHits msg < negHits msg)
      ∧ (-7 : ℚ) ≤ m.score ∧ m.score ≤ 7 := by
  intro msg m hm
  have hwc : (1 : ℚ) ≤ (jsWordCount msg : ℚ) := by exact_mod_cast one_le_jsWordCount msg
  have hwc0 : (0 : ℚ) < (jsWordCount msg : ℚ) := lt_of_lt_of_le one_pos hwc
  have hp7 : ((posHits msg : ℚ)) ≤ 7 := by
    have h := List.length_filter_le (fun word => containsSub (toLowerStr msg) word) positiveWords
    have h' : posHits msg ≤ 7 := by simpa [posHits, positiveWords] using h
    exact_mod_cast h'
  have hn7 : ((negHits msg : ℚ)) ≤ 7 := by
    have h := List.length_filter_le (fun word => containsSub (toLowerStr msg) word) negativeWords
    have h' : negHits msg ≤ 7 := by simpa [negHits, negativeWords] using h
    exact_mod_cast h'
  unfold detectMood at hm
  by_cases h1 : negHits msg < posHits msg
  · rw [if_pos h1] at hm
    injection hm with hm'
    subst hm'
    have hscore : 0 < (posHits msg : ℚ) / (jsWordCount msg : ℚ) := by
      apply div_pos _ hwc0
      have : 0 < posHits msg := Nat.lt_of_le_of_lt (Nat.zero_le _) h1
      exact_mod_cast this
    refine ⟨⟨fun _ => h1, fun _ => hscore⟩, ⟨?_, ?_⟩, ?_, ?_⟩
    · intro hlt
      exact absurd hlt (not_lt.mpr (le_of_lt hscore))
    · intro hgt
      exact (Nat.lt_asymm hgt h1).elim
    · exact le_trans (by norm_num) (le_of_lt hscore)
    · rw [div_le_iff₀ hwc0]
      nlinarith
  · by_cases h2 : posHits msg < negHits msg
    · rw [if_neg h1, if_pos h2] at hm
      injection hm with hm'
      subst hm'
      have hscore : 0 < (negHits msg : ℚ) / (jsWordCount msg : ℚ) := by
        apply div_pos _ hwc0
        have : 0 < negHits msg := Nat.lt_of_le_of_lt (Nat.zero_le _) h2
        exact_mod_cast this
      have hq : (negHits msg : ℚ) / (jsWordCount msg : ℚ) ≤ 7 := by
        rw [div_le_iff₀ hwc0]
        nlinarith
      refine ⟨⟨?_, ?_⟩, ⟨fun _ => h2, fun _ => neg_neg_of_pos hscore⟩, ?_, ?_⟩
      · intro hpos
        exact absurd hpos (not_lt.mpr (le_of_lt (neg_neg_of_pos hscore)))
      · intro hgt
        exact (Nat.lt_asymm hgt h2).elim
      · simpa using neg_le_neg hq
      · exact le_trans (le_of_lt (neg_neg_of_pos hscore)) (by norm_num)
    · rw [if_neg h1, if_neg h2] at hm
      exact (Option.noConfusion hm)

/-- C9 witness: for `"feliz"` (one positive hit, one word) the score is 1,
positive, within the bounds. -/
theorem c9_witness :
    detectMood "feliz" = some ⟨1, "positive", 8/10⟩
    ∧ ((0 < (⟨1, "positive", 8/10⟩ : Mood).score ↔ negHits "feliz" < posHits "feliz")
       ∧ ((⟨1, "positive", 8/10⟩ : Mood).score < 0 ↔ posHits "feliz" < negHits "feliz")
       ∧ (-7 : ℚ) ≤ (⟨1, "positive", 8/10⟩ : Mood).score
       ∧ (⟨1, "positive", 8/10⟩ : Mood).score ≤ 7) := by
  have hm : detectMood "feliz" = some ⟨1, "positive", 8/10⟩ := by
    have hp : posHits "feliz" = 1 := by decide
    have hn : negHits "feliz" = 0 := by decide
    have hw : jsWordCount "feliz" = 1 := by decide
    simp [detectMood, hp, hn, hw]
  exact ⟨hm, c9_mood_score_amended "feliz" ⟨1, "positive", 8/10⟩ hm⟩

/-- C9 counterexample: `"felizcontento"` is a single word containing two
positive lexicon entries as substrings, so the score is 2/1 = 2, outside
the claimed interval [-1, 1]. -/
theorem c9_counterexample :
    (detectMood "felizcontento").map Mood.score = some 2
    ∧ ¬ ((2 : ℚ) ≤ 1) := by
  constructor
  · have hp : posHits "felizcontento" = 2 := by decide
    have hn : negHits "felizcontento" = 0 := by decide
    have hw : jsWordCount "felizcontento" = 1 := by decide
    simp [detectMood, hp, hn, hw]
  · norm_num

/-- C7: in both variants, a successful chat turn appends exactly two
message rows — the user message then the assistant message — to the
returned thread, stamped at or after the call's start (`db.now`) with the
user row strictly earlier; and reading the thread back ordered by creation
time yields its previous (sorted) content followed immediately by the user
message and then the assistant message.  The hypothesis `timesOk db` is
the clock invariant: all pre-existing rows were stamped before `db.now`. -/
theorem c7_round_trip :
    (∀ (db : Db) (tok : String) (user : User) (msg : String) (tid : Option Nat)
       (ptext : Option String) (r : String) (T : Nat) (db' : Db),
       validateToken tok db = .ok user → msg ≠ "" →
       checkContentModeration msg = true → validateUserLimits user user.limits = true →
       timesOk db →
       workerChat db (some tok) msg tid (.parsed ptext) = (.ok r T, db') →
       ∃ umsg amsg : Msg,
         db'.messages = db.messages ++ [umsg, amsg]
         ∧ umsg.role = "user" ∧ umsg.content = msg ∧ umsg.thread_id = T
         ∧ amsg.role = "assistant" ∧ amsg.content = r ∧ amsg.thread_id = T
         ∧ db.now ≤ umsg.created_at ∧ umsg.created_at < amsg.created_at
         ∧ sortByCreated (db'.messages.filter fun m => m.thread_id == T) =
             sortByCreated (db.messages.filter fun m => m.thread_id == T) ++ [umsg, amsg])
    ∧ (∀ (db : Db) (ue : Option String) (user : User) (msg : String) (tid : Option Nat)
         (atext : String) (r : String) (T : Nat) (db' : Db),
         authMiddleware db ue = some user → msg ≠ "" →
         (db.blocked_terms.any fun b => containsSub (toLowerStr msg) (toLowerStr b)) = false →
         timesOk db →
         expressChat db ue msg tid (.ok atext) = (.ok r T, db') →
         ∃ umsg amsg : Msg,
           db'.messages = db.messages ++ [umsg, amsg]
           ∧ umsg.role = "user" ∧ umsg.content = msg ∧ umsg.thread_id = T
           ∧ amsg.role = "assistant" ∧ amsg.content = r ∧ amsg.thread_id = T
           ∧ db.now ≤ umsg.created_at ∧ umsg.created_at < amsg.created_at
           ∧ sortByCreated (db'.messages.filter fun m => m.thread_id == T) =
               sortByCreated (db.messages.filter fun m => m.thread_id == T) ++ [umsg, amsg]) := by
  constructor
  · intro db tok user msg tid ptext r T db' hv hmsg hmod hlim htimes heq
    simp only [workerChat, hv] at heq
    rw [if_neg hmsg] at heq
    simp only [hmod, Bool.not_true, Bool.false_eq_true, if_false] at heq
    simp only [hlim, Bool.not_true, Bool.false_eq_true, if_false] at heq
    cases hf : (tid.bind fun i => db.threads.find? fun t => t.id == i && t.user_id == user.id) with
    | some t0 =>
      simp only [hf] at heq
      injection heq with h1 h2
      injection h1 with hresp hT
      subst hresp
      subst hT
      subst h2
      refine ⟨⟨db.nextId, t0.id, some user.id, "user", msg, db.now⟩,
              ⟨db.nextId + 1, t0.id, some user.id, "assistant", extractGeminiText ptext, db.now + 1⟩,
              ?_, rfl, rfl, rfl, rfl, rfl, rfl, le_refl _, Nat.lt_succ_self _, ?_⟩
      · simp
      · have hstep : (((db.messages ++ [(⟨db.nextId, t0.id, some user.id, "user", msg, db.now⟩ : Msg)]) ++
            [(⟨db.nextId + 1, t0.id, some user.id, "assistant", extractGeminiText ptext, db.now + 1⟩ : Msg)]).filter
              fun m => m.thread_id == t0.id)
            = (db.messages.filter fun m => m.thread_id == t0.id) ++
              [⟨db.nextId, t0.id, some user.id, "user", msg, db.now⟩,
               ⟨db.nextId + 1, t0.id, some user.id, "assistant", extractGeminiText ptext, db.now + 1⟩] := by
          simp [List.filter_append]
        rw [hstep]
        exact sortByCreated_append_two _ _ _ (Nat.le_succ _)
          (fun x hx => le_of_lt (htimes x (List.mem_of_mem_filter hx)))
    | none =>
      simp only [hf] at heq
      injection heq with h1 h2
      injection h1 with hresp hT
      subst hresp
      subst hT
      subst h2
      refine ⟨⟨db.nextId + 1, db.nextId, some user.id, "user", msg, db.now + 1⟩,
              ⟨db.nextId + 2, db.nextId, some user.id, "assistant", extractGeminiText ptext, db.now + 2⟩,
              ?_, rfl, rfl, rfl, rfl, rfl, rfl, Nat.le_succ _, Nat.lt_succ_self _, ?_⟩
      · simp
      · have hstep : (((db.messages ++ [(⟨db.nextId + 1, db.nextId, some user.id, "user", msg, db.now + 1⟩ : Msg)]) ++
            [(⟨db.nextId + 2, db.nextId, some user.id, "assistant", extractGeminiText ptext, db.now + 2⟩ : Msg)]).filter
              fun m => m.thread_id == db.nextId)
            = (db.messages.filter fun m => m.thread_id == db.nextId) ++
              [⟨db.nextId + 1, db.nextId, some user.id, "user", msg, db.now + 1⟩,
               ⟨db.nextId + 2, db.nextId, some user.id, "assistant", extractGeminiText ptext, db.now + 2⟩] := by
          simp [List.filter_append]
        rw [hstep]
        exact sortByCreated_append_two _ _ _ (Nat.le_succ _)
          (fun x hx => le_of_lt (Nat.lt_of_lt_of_le (htimes x (List.mem_of_mem_filter hx)) (Nat.le_succ _)))
  · intro db ue user msg tid atext r T db' hau hmsg hblocked htimes heq
    simp only [expressChat, hau] at heq
    rw [if_neg hmsg] at heq
    simp only [hblocked, Bool.false_eq_true, if_false] at heq
    cases tid with
    | some i =>
      simp only [] at heq
      injection heq with h1 h2
      injection h1 with hresp hT
      subst hresp
      subst hT
      subst h2
      refine ⟨⟨db.nextId, i, none, "user", msg, db.now⟩,
              ⟨db.nextId + 1, i, none, "assistant", atext, db.now + 1⟩,
              ?_, rfl, rfl, rfl, rfl, rfl, rfl, le_refl _, Nat.lt_succ_self _, ?_⟩
      · simp
      · have hstep : (((db.messages ++ [(⟨db.nextId, i, none, "user", msg, db.now⟩ : Msg)]) ++
            [(⟨db.nextId + 1, i, none, "assistant", atext, db.now + 1⟩ : Msg)]).filter
              fun m => m.thread_id == i)
            = (db.messages.filter fun m => m.thread_id == i) ++
              [⟨db.nextId, i, none, "user", msg, db.now⟩,
               ⟨db.nextId + 1, i, none, "assistant", atext, db.now + 1⟩] := by
          simp [List.filter_append]
        rw [hstep]
        exact sortByCreated_append_two _ _ _ (Nat.le_succ _)
          (fun x hx => le_of_lt (htimes x (List.mem_of_mem_filter hx)))
    | none =>
      simp only [] at heq
      injection heq with h1 h2
      injection h1 with hresp hT
      subst hresp
      subst hT
      subst h2
      refine ⟨⟨db.nextId + 1, db.nextId, none, "user", msg, db.now + 1⟩,
              ⟨db.nextId + 2, db.nextId, none, "assistant", atext, db.now + 2⟩,
              ?_, rfl, rfl, rfl, rfl, rfl, rfl, Nat.le_succ _, Nat.lt_succ_self _, ?_⟩
      · simp
      · have hstep : (((db.messages ++ [(⟨db.nextId + 1, db.nextId, none, "user", msg, db.now + 1⟩ : Msg)]) ++
            [(⟨db.nextId + 2, db.nextId, none, "assistant", atext, db.now + 2⟩ : Msg)]).filter
              fun m => m.thread_id == db.nextId)
            = (db.messages.filter fun m => m.thread_id == db.nextId) ++
              [⟨db.nextId + 1, db.nextId, none, "user", msg, db.now + 1⟩,
               ⟨db.nextId + 2, db.nextId, none, "assistant", atext, db.now + 2⟩] := by
          simp [List.filter_append]
        rw [hstep]
        exact sortByCreated_append_two _ _ _ (Nat.le_succ _)
          (fun x hx => le_of_lt (Nat.lt_of_lt_of_le (htimes x (List.mem_of_mem_filter hx)) (Nat.le_succ _)))

/-- C7 witness: the scenario run on each variant — Worker creating thread
100 from scratch, Express appending to the existing thread 7 — appends the
user/assistant pair in order, read back after the prior content. -/
theorem c7_witness :
    (∃ umsg amsg : Msg,
       (workerChat dbW (some "abc123") "Hello" none (.parsed (some "Hi"))).2.messages
           = dbW.messages ++ [umsg, amsg]
       ∧ umsg.role = "user" ∧ umsg.content = "Hello" ∧ umsg.thread_id = 100
       ∧ amsg.role = "assistant" ∧ amsg.content = "Hi" ∧ amsg.thread_id = 100
       ∧ dbW.now ≤ umsg.created_at ∧ umsg.created_at < amsg.created_at
       ∧ sortByCreated ((workerChat dbW (some "abc123") "Hello" none
             (.parsed (some "Hi"))).2.messages.filter fun m => m.thread_id == 100) =
           sortByCreated (dbW.messages.filter fun m => m.thread_id == 100) ++ [umsg, amsg])
    ∧ (∃ umsg amsg : Msg,
         (expressChat dbE none "Hello" (some 7) (.ok "Yo")).2.messages
             = dbE.messages ++ [umsg, amsg]
         ∧ umsg.role = "user" ∧ umsg.content = "Hello" ∧ umsg.thread_id = 7
         ∧ amsg.role = "assistant" ∧ amsg.content = "Yo" ∧ amsg.thread_id = 7
         ∧ dbE.now ≤ umsg.created_at ∧ umsg.created_at < amsg.created_at
         ∧ sortByCreated ((expressChat dbE none "Hello" (some 7)
               (.ok "Yo")).2.messages.filter fun m => m.thread_id == 7) =
             sortByCreated (dbE.messages.filter fun m => m.thread_id == 7) ++ [umsg, amsg]) :=
  ⟨c7_round_trip.1 dbW "abc123" u1 "Hello" none (some "Hi") "Hi" 100
      (workerChat dbW (some "abc123") "Hello" none (.parsed (some "Hi"))).2
      rfl (by decide) (by decide) (by decide)
      (by intro m hm; simp [dbW] at hm) rfl,
   c7_round_trip.2 dbE none adminUser "Hello" (some 7) "Yo" "Yo" 7
      (expressChat dbE none "Hello" (some 7) (.ok "Yo")).2
      rfl (by decide) (by decide)
      (by intro m hm; simp [dbE] at hm; subst hm; decide) rfl⟩

end FamiliaAI
